import Mathlib

/-!
Verification development for the systemd-sysupdate plugin
(`src/plugins/systemd-sysupdate/gs-plugin-systemd-sysupdate.c`).

The plugin's hash tables (`GHashTable` keyed by strings) are embedded as
association lists with overwrite-on-insert semantics; the asynchronous
callback chains are embedded as explicit state-transition functions on a
record of the plugin's mutable state, one transition per callback, and
remote D-Bus calls are abstracted as oracles supplied to the functions
that issue them.
-/

namespace SysUpdate

/-! ## Association-list model of `GHashTable` (string keys, unique) -/

/-- `g_hash_table_lookup`: first binding of key `k`, if any. -/
def lookupA {α : Type} (k : String) : List (String × α) → Option α
  | [] => none
  | (k', v) :: rest => if k' = k then some v else lookupA k rest

/-- `g_hash_table_remove`: drop every binding of key `k`. -/
def removeA {α : Type} (k : String) : List (String × α) → List (String × α)
  | [] => []
  | (k', v) :: rest => if k' = k then removeA k rest else (k', v) :: removeA k rest

/-- `g_hash_table_insert`: overwrite the binding of key `k` with value `v`. -/
def insertA {α : Type} (k : String) (v : α) (l : List (String × α)) : List (String × α) :=
  (k, v) :: removeA k l

@[simp] theorem lookupA_nil {α : Type} (k : String) : lookupA (α := α) k [] = none := rfl

@[simp] theorem lookupA_cons {α : Type} (k k' : String) (v : α) (l : List (String × α)) :
    lookupA k ((k', v) :: l) = if k' = k then some v else lookupA k l := rfl

theorem lookupA_removeA_ne {α : Type} (k k' : String) (l : List (String × α)) (h : k' ≠ k) :
    lookupA k (removeA k' l) = lookupA k l := by
  induction l with
  | nil => rfl
  | cons p rest ih =>
    obtain ⟨pk, pv⟩ := p
    by_cases hpk : pk = k'
    · subst hpk
      simp [removeA, ih, h]
    · by_cases hk : pk = k
      · simp [removeA, hpk, hk, Ne.symm h]
      · simp [removeA, hpk, hk, ih]

@[simp] theorem lookupA_removeA_self {α : Type} (k : String) (l : List (String × α)) :
    lookupA k (removeA k l) = none := by
  induction l with
  | nil => rfl
  | cons p rest ih =>
    obtain ⟨pk, pv⟩ := p
    by_cases hpk : pk = k
    · simp [removeA, hpk, ih]
    · simp [removeA, hpk, ih]

@[simp] theorem lookupA_insertA {α : Type} (k k' : String) (v : α) (l : List (String × α)) :
    lookupA k (insertA k' v l) = if k' = k then some v else lookupA k l := by
  by_cases h : k' = k
  · simp [insertA, h]
  · simp [insertA, h, lookupA_removeA_ne _ _ _ h]

/-! ## App model

`GsApp` objects are embedded as records of the fields the plugin touches.
`gs_app_set_state` and `gs_app_set_state_recover` are implemented in
`gs-app.c`, which is part of this repository but not among the included
sources, so their behaviour is modelled from the spec. -/

/-- The `GsAppState` values used by the plugin. -/
inductive AppState
  | unknown
  | available
  | availableLocal
  | updatable
  | updatableLive
  | queuedForInstall
  | installed
  | downloading
  | pendingInstall
  deriving DecidableEq, Repr

structure AppRec where
  /-- metadata item `SystemdSysupdated::Target` -/
  targetName : String
  /-- metadata item `SystemdSysupdated::Class` equals `"host"` -/
  isHost : Bool
  state : AppState
  /-- the last non-transient state, restored by `gs_app_set_state_recover` -/
  recoverState : AppState
  /-- false models `GS_APP_PROGRESS_UNKNOWN` -/
  progressKnown : Bool
  version : String
  deriving DecidableEq, Repr

/-- Modelled from the spec: `gs_app_set_state` lives in `gs-app.c`, outside the
included sources.  Per the spec (§7), a failed non-Host update restores
"exactly the state the item held before the attempt", so entering the
transient `Downloading` state saves the current state for later recovery. -/
def setAppState (a : AppRec) (st : AppState) : AppRec :=
  if st = .downloading ∧ a.state ≠ .downloading then
    { a with state := st, recoverState := a.state }
  else
    { a with state := st }

/-- Modelled from the spec: `gs_app_set_state_recover` lives in `gs-app.c`,
outside the included sources; it restores the saved pre-update state. -/
def setStateRecover (a : AppRec) : AppRec :=
  { a with state := a.recoverState }

/-! ## Job orchestrator

State-transition embedding of the plugin's job bookkeeping: the three
lookup tables `job_task_map`, `job_to_remove_status_map` and
`job_to_cancel_task_map`, plus the single app being updated.  Each
callback of the C source becomes one transition function.  The model
follows one update operation (one target, one app, one job path); the
tables are kept as full maps exactly as in the source. -/

/-- The task data a `job_task_map` entry gives access to
(`GsPluginSystemdSysupdateUpdateTargetData`); the app itself is shared,
single and kept in `OrchState`. -/
structure JobRec where
  targetPath : String
  deriving DecidableEq, Repr

/-- A `job_to_cancel_task_map` entry: the stored cancel `GTask` with its
`GCancellable` (`cancel_job_revoke` fires the cancellable but does not
remove the entry). -/
structure CancelRec where
  cancellableCancelled : Bool
  deriving DecidableEq, Repr

/-- How the pending `start_update` operation (the update `GTask`) was
resolved: `g_task_return_boolean TRUE`, the nonzero-status error of
`remove_job_apply`, or an error propagated from a failed remote call. -/
inductive Resolution
  | ok
  | errStatus (code : Int)
  | errRemote
  deriving DecidableEq, Repr

structure OrchState where
  jobTaskMap : List (String × JobRec)
  jobToRemoveStatusMap : List (String × Int)
  jobToCancelTaskMap : List (String × CancelRec)
  /-- the app the in-flight update operation is about -/
  app : AppRec
  /-- `target->object_path` of the target backing `app` -/
  targetObjectPath : String
  /-- whether `lookup_target_by_app` finds the target -/
  targetExists : Bool
  /-- every `g_task_return_*` on the update task, in order -/
  resolutions : List Resolution
  /-- number of `Job.Cancel` D-Bus calls issued -/
  remoteCancelCalls : Nat
  deriving DecidableEq, Repr

/-- `gs_plugin_systemd_sysupdate_cancel_job_revoke`: fire the cancellable of
the stored cancel task, if one is filed. -/
def cancelJobRevoke (s : OrchState) (jobPath : String) : OrchState :=
  match lookupA jobPath s.jobToCancelTaskMap with
  | none => s
  | some r =>
      { s with jobToCancelTaskMap :=
          insertA jobPath { r with cancellableCancelled := true } s.jobToCancelTaskMap }

/-- `gs_plugin_systemd_sysupdate_remove_job_apply`: set the app's final state
from the job status, drop the `job_task_map` and `job_to_remove_status_map`
entries, revoke any pending cancellation, and resolve the update task. -/
def removeJobApply (s : OrchState) (jobPath : String) (jobStatus : Int) : OrchState :=
  let app' :=
    if jobStatus = 0 then
      let a := { s.app with progressKnown := false }
      if s.app.isHost then setAppState a .pendingInstall else setAppState a .installed
    else
      let a := { s.app with progressKnown := false }
      if s.app.isHost then setAppState a .available else setStateRecover a
  let s1 : OrchState :=
    { s with app := app',
             jobTaskMap := removeA jobPath s.jobTaskMap,
             jobToRemoveStatusMap := removeA jobPath s.jobToRemoveStatusMap }
  let s2 := cancelJobRevoke s1 jobPath
  { s2 with resolutions :=
      s2.resolutions ++ [if jobStatus = 0 then Resolution.ok else Resolution.errStatus jobStatus] }

/-- `gs_plugin_systemd_sysupdate_remove_job`: duplicate notifications are
ignored; with no active-job entry the status is stored for later and any
pending cancellation revoked; otherwise the removal is applied. -/
def removeJob (s : OrchState) (jobPath : String) (jobStatus : Int) : OrchState :=
  if (lookupA jobPath s.jobToRemoveStatusMap).isSome then s
  else
    match lookupA jobPath s.jobTaskMap with
    | none =>
        let s1 : OrchState :=
          { s with jobToRemoveStatusMap := insertA jobPath jobStatus s.jobToRemoveStatusMap }
        cancelJobRevoke s1 jobPath
    | some _ => removeJobApply s jobPath jobStatus

/-- `gs_plugin_systemd_sysupdate_remove_job_revoke`. -/
def removeJobRevoke (s : OrchState) (jobPath : String) : OrchState :=
  { s with jobToRemoveStatusMap := removeA jobPath s.jobToRemoveStatusMap }

/-- The scan in `gs_plugin_systemd_sysupdate_cancel_job`: iterate over the
on-going tasks and return the job path whose task data matches the target's
object path. -/
def findJobByTargetPath (targetPath : String) : List (String × JobRec) → Option String
  | [] => none
  | (k, r) :: rest =>
      if r.targetPath = targetPath then some k else findJobByTargetPath targetPath rest

/-- `gs_plugin_systemd_sysupdate_cancel_job`: resolve the app to its target,
scan `job_task_map` for the job, bail out if the job is already filed for
cancellation or removal, then either file the cancel task for later (when the
`job_task_map` lookup fails) or issue the remote `Job.Cancel` call. -/
def cancelJob (s : OrchState) : OrchState :=
  if !s.targetExists then s
  else
    match findJobByTargetPath s.targetObjectPath s.jobTaskMap with
    | none => s
    | some jobPath =>
        if (lookupA jobPath s.jobToCancelTaskMap).isSome then s
        else if (lookupA jobPath s.jobToRemoveStatusMap).isSome then s
        else
          match lookupA jobPath s.jobTaskMap with
          | none =>
              { s with jobToCancelTaskMap :=
                  insertA jobPath { cancellableCancelled := false } s.jobToCancelTaskMap }
          | some _ => { s with remoteCancelCalls := s.remoteCancelCalls + 1 }

/-- `gs_plugin_systemd_sysupdate_update_target_notify_progress_cb`: the app is
put in the `Downloading` state and its progress published. -/
def notifyProgress (s : OrchState) : OrchState :=
  { s with app := { setAppState s.app .downloading with progressKnown := true } }

/-- `gs_plugin_systemd_sysupdate_update_target_job_proxy_new_cb`, success
path: publish progress, register the job in `job_task_map`, then replay a
pending removal, else replay a pending cancellation, else honour the caller's
own already-triggered cancellation. -/
def jobProxyNewOk (s : OrchState) (jobPath : String) (callerCancelled : Bool) : OrchState :=
  let s1 := notifyProgress s
  let s2 : OrchState :=
    { s1 with jobTaskMap := insertA jobPath { targetPath := s1.targetObjectPath } s1.jobTaskMap }
  match lookupA jobPath s2.jobToRemoveStatusMap with
  | some status => removeJobApply s2 jobPath status
  | none =>
      match lookupA jobPath s2.jobToCancelTaskMap with
      | some _ => { s2 with remoteCancelCalls := s2.remoteCancelCalls + 1 }
      | none => if callerCancelled then cancelJob s2 else s2

/-- `gs_plugin_systemd_sysupdate_update_target_job_proxy_new_cb`, failure
path: the update task is resolved with the proxy error and any pending
removal or cancellation record for the path is revoked. -/
def jobProxyNewFail (s : OrchState) (jobPath : String) : OrchState :=
  let s1 : OrchState := { s with resolutions := s.resolutions ++ [Resolution.errRemote] }
  let s2 := removeJobRevoke s1 jobPath
  cancelJobRevoke s2 jobPath

/-- The three independently-timed per-job events of §4.4/§4.5, plus the
job-handle-creation failure. -/
inductive Event
  | cancelRequested
  | jobRemoved (status : Int)
  | jobCreated (callerCancelled : Bool)
  | jobCreateFailed
  deriving DecidableEq, Repr

def orchStep (jobPath : String) (s : OrchState) : Event → OrchState
  | .cancelRequested => cancelJob s
  | .jobRemoved status => removeJob s jobPath status
  | .jobCreated callerCancelled => jobProxyNewOk s jobPath callerCancelled
  | .jobCreateFailed => jobProxyNewFail s jobPath

def orchRun (jobPath : String) (s : OrchState) : List Event → OrchState
  | [] => s
  | e :: rest => orchRun jobPath (orchStep jobPath s e) rest

/-- State at the point `Target.Update()` has been requested: the job exists
remotely (notifications for `jobPath` can arrive) but no bookkeeping for it
has been done yet and the tables are empty. -/
def initState (isHost : Bool) (st0 : AppState) (targetPath : String) : OrchState :=
  { jobTaskMap := []
    jobToRemoveStatusMap := []
    jobToCancelTaskMap := []
    app := { targetName := "target", isHost := isHost, state := st0, recoverState := st0,
             progressKnown := false, version := "v" }
    targetObjectPath := targetPath
    targetExists := true
    resolutions := []
    remoteCancelCalls := 0 }

/-- States reachable from an initial state by any sequence of per-job
events. -/
inductive Reachable (jobPath : String) : OrchState → Prop
  | init (isHost : Bool) (st0 : AppState) (tp : String) :
      Reachable jobPath (initState isHost st0 tp)
  | next (s : OrchState) (e : Event) (h : Reachable jobPath s) :
      Reachable jobPath (orchStep jobPath s e)

/-- The active-job table, the pending-removal table and the
pending-cancellation table hold no entry keyed by `jobPath`. -/
def tablesClear (jobPath : String) (s : OrchState) : Prop :=
  lookupA jobPath s.jobTaskMap = none ∧
  lookupA jobPath s.jobToRemoveStatusMap = none ∧
  lookupA jobPath s.jobToCancelTaskMap = none

/-- The update operation was resolved exactly once and the three lookup
tables are empty for the job path. -/
def raceOutcome (jobPath : String) (s : OrchState) : Prop :=
  s.resolutions.length = 1 ∧ tablesClear jobPath s

/-- C1: for any job path and every arrival order of job creation completing,
the job-removed notification and the cancellation request, the pending
update-target operation is resolved exactly once, and afterwards none of the
active-job, pending-removal and pending-cancellation tables contains an
entry keyed by that job path. -/
theorem race_resolves_once_and_clears_tables
    (isHost : Bool) (st0 : AppState) (tp jp : String) (c : Bool) (status : Int) :
    raceOutcome jp (orchRun jp (initState isHost st0 tp)
      [.jobCreated c, .jobRemoved status, .cancelRequested]) ∧
    raceOutcome jp (orchRun jp (initState isHost st0 tp)
      [.jobCreated c, .cancelRequested, .jobRemoved status]) ∧
    raceOutcome jp (orchRun jp (initState isHost st0 tp)
      [.jobRemoved status, .jobCreated c, .cancelRequested]) ∧
    raceOutcome jp (orchRun jp (initState isHost st0 tp)
      [.jobRemoved status, .cancelRequested, .jobCreated c]) ∧
    raceOutcome jp (orchRun jp (initState isHost st0 tp)
      [.cancelRequested, .jobCreated c, .jobRemoved status]) ∧
    raceOutcome jp (orchRun jp (initState isHost st0 tp)
      [.cancelRequested, .jobRemoved status, .jobCreated c]) := by
  refine ⟨?_, ?_, ?_, ?_, ?_, ?_⟩ <;> cases c <;>
    simp [raceOutcome, tablesClear, orchRun, orchStep, initState, jobProxyNewOk,
          notifyProgress, removeJob, removeJobApply, removeJobRevoke, cancelJob,
          cancelJobRevoke, findJobByTargetPath, jobProxyNewFail, insertA, removeA]

/-! ### Helper lemmas about the orchestrator transitions -/

@[simp] theorem cancelJobRevoke_jobTaskMap (s : OrchState) (jp : String) :
    (cancelJobRevoke s jp).jobTaskMap = s.jobTaskMap := by
  unfold cancelJobRevoke
  rcases h : lookupA jp s.jobToCancelTaskMap with _ | r <;> simp [h]

@[simp] theorem cancelJobRevoke_jobToRemoveStatusMap (s : OrchState) (jp : String) :
    (cancelJobRevoke s jp).jobToRemoveStatusMap = s.jobToRemoveStatusMap := by
  unfold cancelJobRevoke
  rcases h : lookupA jp s.jobToCancelTaskMap with _ | r <;> simp [h]

@[simp] theorem cancelJobRevoke_app (s : OrchState) (jp : String) :
    (cancelJobRevoke s jp).app = s.app := by
  unfold cancelJobRevoke
  rcases h : lookupA jp s.jobToCancelTaskMap with _ | r <;> simp [h]

@[simp] theorem cancelJobRevoke_resolutions (s : OrchState) (jp : String) :
    (cancelJobRevoke s jp).resolutions = s.resolutions := by
  unfold cancelJobRevoke
  rcases h : lookupA jp s.jobToCancelTaskMap with _ | r <;> simp [h]

/-- A job path returned by the scan over `job_task_map` is a key of
`job_task_map`: the lookup right after the scan cannot fail. -/
theorem findJob_lookup_isSome (tp k : String) (l : List (String × JobRec))
    (h : findJobByTargetPath tp l = some k) : (lookupA k l).isSome = true := by
  induction l with
  | nil => simp [findJobByTargetPath] at h
  | cons p rest ih =>
    obtain ⟨pk, pv⟩ := p
    by_cases hm : pv.targetPath = tp
    · simp [findJobByTargetPath, hm] at h
      simp [h]
    · simp [findJobByTargetPath, hm] at h
      by_cases hk : pk = k
      · simp [hk]
      · simp [hk]
        exact ih h

@[simp] theorem cancelJob_jobTaskMap (s : OrchState) :
    (cancelJob s).jobTaskMap = s.jobTaskMap := by
  unfold cancelJob
  by_cases ht : s.targetExists
  · rcases hf : findJobByTargetPath s.targetObjectPath s.jobTaskMap with _ | k
    · simp [ht, hf]
    · by_cases hc : (lookupA k s.jobToCancelTaskMap).isSome
      · simp [ht, hf, hc]
      · by_cases hr : (lookupA k s.jobToRemoveStatusMap).isSome
        · simp [ht, hf, hc, hr]
        · rcases htm : lookupA k s.jobTaskMap with _ | v
          · simp [ht, hf, hc, hr, htm]
          · simp [ht, hf, hc, hr, htm]
  · simp [ht]

@[simp] theorem cancelJob_jobToRemoveStatusMap (s : OrchState) :
    (cancelJob s).jobToRemoveStatusMap = s.jobToRemoveStatusMap := by
  unfold cancelJob
  by_cases ht : s.targetExists
  · rcases hf : findJobByTargetPath s.targetObjectPath s.jobTaskMap with _ | k
    · simp [ht, hf]
    · by_cases hc : (lookupA k s.jobToCancelTaskMap).isSome
      · simp [ht, hf, hc]
      · by_cases hr : (lookupA k s.jobToRemoveStatusMap).isSome
        · simp [ht, hf, hc, hr]
        · rcases htm : lookupA k s.jobTaskMap with _ | v
          · simp [ht, hf, hc, hr, htm]
          · simp [ht, hf, hc, hr, htm]
  · simp [ht]

@[simp] theorem cancelJob_resolutions (s : OrchState) :
    (cancelJob s).resolutions = s.resolutions := by
  unfold cancelJob
  by_cases ht : s.targetExists
  · rcases hf : findJobByTargetPath s.targetObjectPath s.jobTaskMap with _ | k
    · simp [ht, hf]
    · by_cases hc : (lookupA k s.jobToCancelTaskMap).isSome
      · simp [ht, hf, hc]
      · by_cases hr : (lookupA k s.jobToRemoveStatusMap).isSome
        · simp [ht, hf, hc, hr]
        · rcases htm : lookupA k s.jobTaskMap with _ | v
          · simp [ht, hf, hc, hr, htm]
          · simp [ht, hf, hc, hr, htm]
  · simp [ht]

@[simp] theorem removeJobApply_lookup_jobTaskMap (s : OrchState) (jp : String) (st : Int) :
    lookupA jp (removeJobApply s jp st).jobTaskMap = none := by
  simp [removeJobApply]

@[simp] theorem removeJobApply_lookup_jobToRemoveStatusMap (s : OrchState) (jp : String)
    (st : Int) :
    lookupA jp (removeJobApply s jp st).jobToRemoveStatusMap = none := by
  simp [removeJobApply]

@[simp] theorem removeJobApply_resolutions (s : OrchState) (jp : String) (st : Int) :
    (removeJobApply s jp st).resolutions =
      s.resolutions ++ [if st = 0 then Resolution.ok else Resolution.errStatus st] := by
  simp [removeJobApply]

theorem removeJobApply_app_state (s : OrchState) (jp : String) (st : Int) :
    (removeJobApply s jp st).app.state =
      (if st = 0 then (if s.app.isHost then AppState.pendingInstall else AppState.installed)
       else (if s.app.isHost then AppState.available else s.app.recoverState)) := by
  by_cases hst : st = 0 <;> cases hh : s.app.isHost <;>
    simp [removeJobApply, setAppState, setStateRecover, hst, hh]

/-- Invariant of §3: a job path is in at most one of the active-job table and
the pending-removal table in every reachable state. -/
theorem reachable_active_removal_disjoint {jp : String} {s : OrchState}
    (h : Reachable jp s) :
    ¬((lookupA jp s.jobTaskMap).isSome = true ∧
      (lookupA jp s.jobToRemoveStatusMap).isSome = true) := by
  induction h with
  | init isHost st0 tp => simp [initState]
  | next s e hs ih =>
    cases e with
    | cancelRequested =>
        simpa only [orchStep, cancelJob_jobTaskMap, cancelJob_jobToRemoveStatusMap] using ih
    | jobRemoved status =>
        simp only [orchStep]
        unfold removeJob
        by_cases hrm : (lookupA jp s.jobToRemoveStatusMap).isSome
        · simpa [hrm] using ih
        · rcases htm : lookupA jp s.jobTaskMap with _ | v
          · simp [hrm, htm]
          · simp [hrm, htm]
    | jobCreated c =>
        simp only [orchStep]
        unfold jobProxyNewOk
        rcases hrm : lookupA jp (notifyProgress s).jobToRemoveStatusMap with _ | st
        · rcases hcm : lookupA jp (notifyProgress s).jobToCancelTaskMap with _ | r
          · by_cases hc : c
            · simp only [hrm, hcm, hc, if_true]
              intro hcontra
              have h2 := hcontra.2
              rw [cancelJob_jobToRemoveStatusMap] at h2
              simp only [notifyProgress] at hrm h2 ⊢
              simp [hrm] at h2
            · simp only [hrm, hcm, hc, if_false]
              intro hcontra
              have h2 := hcontra.2
              simp only [notifyProgress] at hrm h2
              simp [hrm] at h2
          · simp only [hrm, hcm]
            intro hcontra
            have h2 := hcontra.2
            simp only [notifyProgress] at hrm h2
            simp [hrm] at h2
        · simp only [hrm]
          simp
    | jobCreateFailed =>
        simp only [orchStep]
        unfold jobProxyNewFail removeJobRevoke
        simp

/-- C2: a job-removed notification whose job path has an active-job entry is
applied immediately: the update operation is resolved exactly once more, with
success iff the status is 0 (a failure carries the status code); the
active-job entry is removed; and the item's state becomes PendingInstall
(host, status 0), Installed (non-host, status 0), Available (host, nonzero
status) or its saved previous stable state (non-host, nonzero status). -/
theorem removal_with_active_entry_applies_immediately
    (jp : String) (s : OrchState) (status : Int)
    (h : Reachable jp s) (ha : (lookupA jp s.jobTaskMap).isSome = true) :
    (removeJob s jp status).resolutions =
      s.resolutions ++ [if status = 0 then Resolution.ok else Resolution.errStatus status] ∧
    lookupA jp (removeJob s jp status).jobTaskMap = none ∧
    lookupA jp (removeJob s jp status).jobToRemoveStatusMap = none ∧
    (removeJob s jp status).app.state =
      (if status = 0 then (if s.app.isHost then AppState.pendingInstall else AppState.installed)
       else (if s.app.isHost then AppState.available else s.app.recoverState)) := by
  have hrm : ¬(lookupA jp s.jobToRemoveStatusMap).isSome = true := by
    intro hc
    exact reachable_active_removal_disjoint h ⟨ha, hc⟩
  rcases Option.isSome_iff_exists.mp ha with ⟨v, hv⟩
  unfold removeJob
  simp only [hrm, hv, if_false, Bool.false_eq_true]
  refine ⟨removeJobApply_resolutions s jp status, removeJobApply_lookup_jobTaskMap s jp status,
    removeJobApply_lookup_jobToRemoveStatusMap s jp status, removeJobApply_app_state s jp status⟩

/-- Witness for C2 at a concrete reachable state (job created, no pending
records) and status 0. -/
theorem removal_with_active_entry_applies_immediately_witness :
    (lookupA "/job/1"
      ((orchStep "/job/1" (initState false .updatable "/t/1")
        (.jobCreated false)).jobTaskMap)).isSome = true ∧
    ((removeJob (orchStep "/job/1" (initState false .updatable "/t/1") (.jobCreated false))
        "/job/1" 0).resolutions =
      (orchStep "/job/1" (initState false .updatable "/t/1") (.jobCreated false)).resolutions ++
        [if (0 : Int) = 0 then Resolution.ok else Resolution.errStatus 0] ∧
    lookupA "/job/1"
      (removeJob (orchStep "/job/1" (initState false .updatable "/t/1") (.jobCreated false))
        "/job/1" 0).jobTaskMap = none ∧
    lookupA "/job/1"
      (removeJob (orchStep "/job/1" (initState false .updatable "/t/1") (.jobCreated false))
        "/job/1" 0).jobToRemoveStatusMap = none ∧
    (removeJob (orchStep "/job/1" (initState false .updatable "/t/1") (.jobCreated false))
        "/job/1" 0).app.state =
      (if (0 : Int) = 0 then
        (if (orchStep "/job/1" (initState false .updatable "/t/1")
              (.jobCreated false)).app.isHost then AppState.pendingInstall
         else AppState.installed)
       else
        (if (orchStep "/job/1" (initState false .updatable "/t/1")
              (.jobCreated false)).app.isHost then AppState.available
         else (orchStep "/job/1" (initState false .updatable "/t/1")
              (.jobCreated false)).app.recoverState))) :=
  ⟨by decide,
   removal_with_active_entry_applies_immediately "/job/1"
     (orchStep "/job/1" (initState false .updatable "/t/1") (.jobCreated false)) 0
     (Reachable.next (initState false .updatable "/t/1") (.jobCreated false)
       (Reachable.init false .updatable "/t/1"))
     (by decide)⟩

/-- The pending-cancellation table is never written: `cancel_job` discovers
the job path by scanning `job_task_map`, so the `job_task_map` lookup right
after the scan always succeeds and the branch that would file the cancel
task for later replay is unreachable. -/
theorem cancelJob_jobToCancelTaskMap (s : OrchState) :
    (cancelJob s).jobToCancelTaskMap = s.jobToCancelTaskMap := by
  unfold cancelJob
  by_cases ht : s.targetExists
  · rcases hf : findJobByTargetPath s.targetObjectPath s.jobTaskMap with _ | k
    · simp [ht, hf]
    · by_cases hc : (lookupA k s.jobToCancelTaskMap).isSome
      · simp [ht, hf, hc]
      · by_cases hr : (lookupA k s.jobToRemoveStatusMap).isSome
        · simp [ht, hf, hc, hr]
        · rcases Option.isSome_iff_exists.mp (findJob_lookup_isSome _ _ _ hf) with ⟨v, hv⟩
          simp [ht, hf, hc, hr, hv]
  · simp [ht]

/-- C3 (code-bug evidence): a cancellation request arriving while the update
job has been started remotely but before its job handle exists is dropped
silently — evaluated at such a state (`initState`, empty tables),
`cancel_job` leaves the state unchanged, and in general no call to
`cancel_job` ever files a pending-cancellation record, because the job path
is discovered by scanning the active-job table itself. -/
theorem cancel_before_job_handle_files_no_pending_record :
    (∀ s : OrchState, (cancelJob s).jobToCancelTaskMap = s.jobToCancelTaskMap) ∧
    cancelJob (initState false .updatable "/t/1") = initState false .updatable "/t/1" :=
  ⟨cancelJob_jobToCancelTaskMap, by decide⟩

/-! ## Target registry and trackable-item factory

Embedding of `TargetItem`, `create_app_for_target`,
`get_or_create_app_for_target` and `update_app_for_target`. -/

/-- `TargetItem` (the proxy pointer is not modelled; it carries no state the
claims touch). -/
structure RTarget where
  isValid : Bool
  cls : String
  name : String
  objectPath : String
  currentVersion : String
  latestVersion : String
  deriving DecidableEq, Repr

/-- `target_item_new`: valid on creation, versions start empty. -/
def targetItemNew (cls name objectPath : String) : RTarget :=
  { isValid := true, cls := cls, name := name, objectPath := objectPath,
    currentVersion := "", latestVersion := "" }

/-- `create_app_for_target`: builds an app for a `host` or `component` class
target and fails (returns none) for any other class. -/
def createAppForTarget (t : RTarget) : Option AppRec :=
  if t.cls = "host" then
    some { targetName := t.name, isHost := true, state := .unknown, recoverState := .unknown,
           progressKnown := false, version := "unknown" }
  else if t.cls = "component" then
    some { targetName := t.name, isHost := false, state := .unknown, recoverState := .unknown,
           progressKnown := false, version := "unknown" }
  else
    none

/-- `get_or_create_app_for_target`: per-plugin cache lookup keyed by the
target name, falling back to creation plus cache insertion. -/
def getOrCreateAppForTarget (cache : List (String × AppRec)) (t : RTarget) :
    Option AppRec × List (String × AppRec) :=
  match lookupA t.name cache with
  | some app => (some app, cache)
  | none =>
      match createAppForTarget t with
      | none => (none, cache)
      | some app => (some app, insertA t.name app cache)

/-- `update_app_for_target`: compute the displayed `(version, state)` of an
app from its target's class and versions; unsupported classes leave the app
untouched. -/
def updateAppForTarget (osVersion : String) (app : AppRec) (t : RTarget) : AppRec :=
  if t.cls = "host" then
    let isAvailable := t.latestVersion ≠ ""
    let vs := if isAvailable then (t.latestVersion, AppState.available)
              else (osVersion, AppState.unknown)
    setAppState { app with version := vs.1 } vs.2
  else if t.cls = "component" then
    let isAvailable := t.latestVersion ≠ ""
    let isInstalled := t.currentVersion ≠ ""
    let vs :=
      if isAvailable then
        if isInstalled then (t.latestVersion, AppState.updatable)
        else (t.latestVersion, AppState.available)
      else
        if isInstalled then (t.currentVersion, AppState.installed)
        else ("", AppState.unknown)
    setAppState { app with version := vs.1 } vs.2
  else
    app

/-- The registry owned by the plugin object: `target_item_map` plus the
per-plugin app cache (both keyed by target name). -/
structure PluginState where
  targetItemMap : List (String × RTarget)
  cache : List (String × AppRec)
  deriving DecidableEq, Repr

/-- The snapshot replacement of
`gs_plugin_systemd_sysupdate_refresh_metadata_list_targets_cb`: mark every
entry invalid, insert one fresh entry per listed `(class, name, path)` tuple,
evict the cached app of every entry still invalid, then purge those
entries. -/
def replaceSnapshot (st : PluginState) (listing : List (String × String × String)) :
    PluginState :=
  let marked := st.targetItemMap.map (fun p => (p.1, { p.2 with isValid := false }))
  let merged := listing.foldl
    (fun m e => insertA e.2.1 (targetItemNew e.1 e.2.1 e.2.2) m) marked
  let cache' := st.cache.filter (fun p =>
    match lookupA p.1 merged with
    | some t => t.isValid
    | none => true)
  { targetItemMap := merged.filter (fun p => p.2.isValid), cache := cache' }

/-! ## Listing operations -/

/-- `GsAppQueryTristate`. -/
inductive Tristate
  | unset
  | isFalse
  | isTrue
  deriving DecidableEq, Repr

/-- The query properties `list_apps_async` reads, plus
`gs_app_query_get_n_properties_set`. -/
structure AppQuery where
  isInstalled : Tristate
  isForUpdate : Tristate
  keywords : Option (List String)
  nPropertiesSet : Nat
  deriving DecidableEq, Repr

/-- The per-target loop of `gs_plugin_systemd_sysupdate_list_apps_async`:
get-or-create the app, skip `host`-class targets, then add the app when the
keywords match, the query asks for updatable apps, or the installed tristate
matches the target's current version.  Returns the added target names and
the updated cache. -/
def listAppsVisit (q : AppQuery) :
    List (String × RTarget) → List (String × AppRec) →
      List String × List (String × AppRec)
  | [], cache => ([], cache)
  | (_, t) :: rest, cache =>
      match getOrCreateAppForTarget cache t with
      | (none, cache1) => listAppsVisit q rest cache1
      | (some _, cache1) =>
          if t.cls = "host" then
            listAppsVisit q rest cache1
          else if (match q.keywords with
                   | some kws =>
                      kws.contains "sysupdate" || kws.contains t.cls || kws.contains t.name
                   | none => false) then
            let p := listAppsVisit q rest cache1
            (t.name :: p.1, p.2)
          else if q.isForUpdate = .isTrue then
            let p := listAppsVisit q rest cache1
            (t.name :: p.1, p.2)
          else if q.isInstalled ≠ .unset ∧
                  ((q.isInstalled = .isFalse ∧ t.currentVersion = "") ∨
                   (q.isInstalled = .isTrue ∧ t.currentVersion ≠ "")) then
            let p := listAppsVisit q rest cache1
            (t.name :: p.1, p.2)
          else
            listAppsVisit q rest cache1

/-- `gs_plugin_systemd_sysupdate_list_apps_async`: reject unsupported
queries, otherwise visit every target of the registry. -/
def listApps (st : PluginState) (q : AppQuery) :
    Except String (List String × List (String × AppRec)) :=
  if (q.isInstalled = .unset ∧ q.isForUpdate = .unset ∧ q.keywords = none) ∨
      q.nPropertiesSet ≠ 1 then
    .error "Unsupported query"
  else
    .ok (listAppsVisit q st.targetItemMap st.cache)

/-- The per-target loop of
`gs_plugin_systemd_sysupdate_list_distro_upgrades_async`: only `host`-class
targets with a non-empty latest version are reported. -/
def listDistroUpgradesVisit :
    List (String × RTarget) → List (String × AppRec) →
      List String × List (String × AppRec)
  | [], cache => ([], cache)
  | (_, t) :: rest, cache =>
      if t.cls ≠ "host" then
        listDistroUpgradesVisit rest cache
      else if t.latestVersion = "" then
        listDistroUpgradesVisit rest cache
      else
        match getOrCreateAppForTarget cache t with
        | (none, cache1) => listDistroUpgradesVisit rest cache1
        | (some _, cache1) =>
            let p := listDistroUpgradesVisit rest cache1
            (t.name :: p.1, p.2)

def listDistroUpgrades (st : PluginState) :
    List String × List (String × AppRec) :=
  listDistroUpgradesVisit st.targetItemMap st.cache

/-! ## Metadata refresh pipeline -/

/-- The remote calls issued during a per-target visit, abstracted as an
oracle: `gs_systemd_sysupdate_target_proxy_new`, `Target.GetVersion` and
`Target.CheckNew`. -/
structure RemoteOracle where
  proxyNew : String → Except String Unit
  getVersion : String → Except String String
  checkNew : String → Except String String

/-- The per-target visit loop
(`refresh_metadata_iter` / `_proxy_new_cb` / `_get_version_cb` /
`_check_new_cb`): pop one target, create its proxy, fetch its installed
version, check for a newer version, update the registry and the cached app,
then move to the next target.  A failed remote call resolves the refresh
task with that error. -/
def refreshMetadataIter (oracle : RemoteOracle) (osVersion : String) :
    List RTarget → PluginState → PluginState × Except String Unit
  | [], st => (st, .ok ())
  | t :: queue, st =>
      match oracle.proxyNew t.objectPath with
      | .error e => (st, .error e)
      | .ok _ =>
          match oracle.getVersion t.objectPath with
          | .error e => (st, .error e)
          | .ok cur =>
              let t1 := { t with currentVersion := cur }
              let st1 : PluginState :=
                { st with targetItemMap := insertA t1.name t1 st.targetItemMap }
              match oracle.checkNew t.objectPath with
              | .error e => (st1, .error e)
              | .ok latest =>
                  let t2 := { t1 with latestVersion := latest }
                  let st2 : PluginState :=
                    { st1 with targetItemMap := insertA t2.name t2 st1.targetItemMap }
                  match getOrCreateAppForTarget st2.cache t2 with
                  | (some app, cache1) =>
                      refreshMetadataIter oracle osVersion queue
                        { st2 with
                            cache := insertA t2.name (updateAppForTarget osVersion app t2) cache1 }
                  | (none, cache1) =>
                      refreshMetadataIter oracle osVersion queue { st2 with cache := cache1 }

/-- The plugin fields guarding `refresh_metadata_async`. -/
structure RefreshCtl where
  isMetadataRefreshOngoing : Bool
  lastRefreshUsecs : Nat
  deriving DecidableEq, Repr

/-- The gate at the top of `gs_plugin_systemd_sysupdate_refresh_metadata_async`:
while a refresh is ongoing, or the monotonic-clock delta is below the
caller's nonzero max cache age, return success immediately without starting
a pass; otherwise set the in-progress flag, record the time and start the
pass.  The returned Bool is whether `Manager.ListTargets` is called. -/
def refreshMetadataBegin (ctl : RefreshCtl) (nowUsecs cacheAgeSecs : Nat) :
    Bool × RefreshCtl :=
  let deltaUsecs := nowUsecs - ctl.lastRefreshUsecs
  if ctl.isMetadataRefreshOngoing ∨
      (0 < cacheAgeSecs ∧ deltaUsecs < cacheAgeSecs * 1000000) then
    (false, ctl)
  else
    (true, { isMetadataRefreshOngoing := true, lastRefreshUsecs := nowUsecs })

/-! ## Batch update driver -/

/-- A queued app as `update_apps_async` sees it. -/
structure BatchApp where
  name : String
  targetName : String
  state : AppState
  deriving DecidableEq, Repr

inductive PluginError
  | notFound (appName : String)
  | failed (msg : String)
  deriving DecidableEq, Repr

/-- One whole `update_target_async` operation abstracted as an oracle:
its resolution and the state its app holds once the operation resolves. -/
structure UpdateOracle where
  result : String → Except PluginError Unit
  finalState : String → AppState

/-- `gs_plugin_systemd_sysupdate_update_apps_iter` together with
`_update_apps_update_target_cb`: process the queue strictly one app at a
time; an error resolves the whole batch task immediately, otherwise iterate.
Returns the apps (invoked ones carrying their post-operation state), the
object paths of the targets whose update was started, and the batch
result. -/
def updateAppsIter (st : PluginState) (orc : UpdateOracle) :
    List BatchApp → List BatchApp × List String × Except PluginError Unit
  | [] => ([], [], .ok ())
  | a :: rest =>
      match lookupA a.targetName st.targetItemMap with
      | none => (a :: rest, [], .error (.notFound a.name))
      | some t =>
          match orc.result t.objectPath with
          | .error e =>
              ({ a with state := orc.finalState t.objectPath } :: rest,
               [t.objectPath], .error e)
          | .ok _ =>
              let p := updateAppsIter st orc rest
              ({ a with state := orc.finalState t.objectPath } :: p.1,
               t.objectPath :: p.2.1, p.2.2)

/-- The states `update_apps_async` accepts for updating. -/
def appStateAllowsUpdate (st : AppState) : Bool :=
  st = AppState.available || st = AppState.availableLocal || st = AppState.updatable ||
    st = AppState.updatableLive || st = AppState.queuedForInstall

/-- The queue building of `update_apps_async`: skip apps not in an updatable
state, push `component-devel` to the tail and everything else to the
head. -/
def buildUpdateQueue (apps : List BatchApp) : List BatchApp :=
  apps.foldl
    (fun q a =>
      if appStateAllowsUpdate a.state then
        if a.name = "component-devel" then q ++ [a] else a :: q
      else q)
    []

/-- `gs_plugin_systemd_sysupdate_update_apps_async`: both no-download and
no-apply means there is nothing to do (immediate success); exactly one of
them cannot be honoured since download and apply are a single operation in
`systemd-sysupdate` (immediate failure); otherwise build the queue and
iterate. -/
def updateAppsAsync (st : PluginState) (orc : UpdateOracle)
    (noDownload noApply : Bool) (apps : List BatchApp) :
    List BatchApp × List String × Except PluginError Unit :=
  if noDownload && noApply then
    (apps, [], .ok ())
  else if noDownload then
    (apps, [],
     .error (.failed "systemd-sysupdate cannot apply an update without downloading it"))
  else if noApply then
    (apps, [],
     .error (.failed "systemd-sysupdate cannot download an update without applying it"))
  else
    updateAppsIter st orc (buildUpdateQueue apps)

/-! ## Claim theorems: item factory, refresh pipeline, gate, batch driver -/

def componentTarget (name path cur latest : String) : RTarget :=
  { isValid := true, cls := "component", name := name, objectPath := path,
    currentVersion := cur, latestVersion := latest }

def hostTarget (name path cur latest : String) : RTarget :=
  { isValid := true, cls := "host", name := name, objectPath := path,
    currentVersion := cur, latestVersion := latest }

/-- The `(version, state)` pair `update_app_for_target` displays. -/
def displayedOf (os : String) (app : AppRec) (t : RTarget) : String × AppState :=
  ((updateAppForTarget os app t).version, (updateAppForTarget os app t).state)

/-- C5: updating an item from its target snapshot is a deterministic function
of `(class, current_version, latest_version)`: a Component target yields
exactly `(latest, Updatable)`, `(latest, Available)`, `(current, Installed)`
or `("", Unknown)` according to which versions are non-empty, and a Host
target yields `(latest, Available)` when a latest version exists and
`(installed OS version, Unknown)` otherwise. -/
theorem update_from_target_deterministic_cases
    (os : String) (app : AppRec) (name path cur latest : String) :
    (cur ≠ "" → latest ≠ "" →
        displayedOf os app (componentTarget name path cur latest) = (latest, .updatable)) ∧
    (cur = "" → latest ≠ "" →
        displayedOf os app (componentTarget name path cur latest) = (latest, .available)) ∧
    (cur ≠ "" → latest = "" →
        displayedOf os app (componentTarget name path cur latest) = (cur, .installed)) ∧
    (cur = "" → latest = "" →
        displayedOf os app (componentTarget name path cur latest) = ("", .unknown)) ∧
    (latest ≠ "" →
        displayedOf os app (hostTarget name path cur latest) = (latest, .available)) ∧
    (latest = "" →
        displayedOf os app (hostTarget name path cur latest) = (os, .unknown)) := by
  refine ⟨fun h1 h2 => ?_, fun h1 h2 => ?_, fun h1 h2 => ?_, fun h1 h2 => ?_,
          fun h1 => ?_, fun h1 => ?_⟩ <;>
    simp [displayedOf, updateAppForTarget, componentTarget, hostTarget, setAppState, h1,
      *]

/-- Witness for C5, Scenario B: a Component target with `current = "c0"` and
no latest version displays `("c0", Installed)`. -/
theorem update_from_target_deterministic_cases_witness :
    displayedOf "os"
      { targetName := "c", isHost := false, state := .unknown, recoverState := .unknown,
        progressKnown := false, version := "unknown" }
      (componentTarget "c" "/t/c" "c0" "") = ("c0", .installed) :=
  (update_from_target_deterministic_cases "os"
    { targetName := "c", isHost := false, state := .unknown, recoverState := .unknown,
      progressKnown := false, version := "unknown" }
    "c" "/t/c" "c0" "").2.2.1 (by decide) rfl

/-- C4 counterexample: with two queued Component targets where the remote
`Target.GetVersion` call fails for the first one, the refresh resolves with
that error instead of skipping the target and completing successfully. -/
def c4Oracle : RemoteOracle :=
  { proxyNew := fun _ => .ok ()
    getVersion := fun p => if p = "/t/1" then .error "remote call failed" else .ok "v1"
    checkNew := fun _ => .ok "" }

def c4TargetOne : RTarget := targetItemNew "component" "one" "/t/1"

def c4TargetTwo : RTarget := targetItemNew "component" "two" "/t/2"

def c4State : PluginState :=
  { targetItemMap := [("one", c4TargetOne), ("two", c4TargetTwo)], cache := [] }

/-- C4, the claim as written is false: a per-target remote-call failure is
not logged-and-skipped; the refresh resolves with the error. -/
theorem per_target_failure_not_skipped_counterexample :
    (refreshMetadataIter c4Oracle "os" [c4TargetOne, c4TargetTwo] c4State).2 =
      .error "remote call failed" := by
  rfl

/-- C4 amended: a remote call failure while visiting one target (creating
its proxy, getting its installed version, or checking for a newer version)
aborts the whole refresh: the error is surfaced as the refresh result and
the remaining queued targets are not visited (the result is the same for
every remaining queue). -/
theorem per_target_visit_failure_aborts_refresh
    (oracle : RemoteOracle) (os : String) (t : RTarget) (rest : List RTarget)
    (st : PluginState) (e : String) :
    (oracle.proxyNew t.objectPath = .error e →
      (refreshMetadataIter oracle os (t :: rest) st).2 = .error e) ∧
    (oracle.proxyNew t.objectPath = .ok () → oracle.getVersion t.objectPath = .error e →
      (refreshMetadataIter oracle os (t :: rest) st).2 = .error e) ∧
    (∀ cur, oracle.proxyNew t.objectPath = .ok () → oracle.getVersion t.objectPath = .ok cur →
      oracle.checkNew t.objectPath = .error e →
      (refreshMetadataIter oracle os (t :: rest) st).2 = .error e) := by
  refine ⟨fun h1 => ?_, fun h1 h2 => ?_, fun cur h1 h2 h3 => ?_⟩
  · simp [refreshMetadataIter, h1]
  · simp [refreshMetadataIter, h1, h2]
  · simp [refreshMetadataIter, h1, h2, h3]

/-- Witness for C4's amended theorem at the concrete failing refresh. -/
theorem per_target_visit_failure_aborts_refresh_witness :
    (refreshMetadataIter c4Oracle "os" [c4TargetOne, c4TargetTwo] c4State).2 =
      Except.error "remote call failed" :=
  (per_target_visit_failure_aborts_refresh c4Oracle "os" c4TargetOne [c4TargetTwo]
    c4State "remote call failed").2.1 rfl rfl

/-- C7: a metadata-refresh request arriving while a refresh is ongoing, or
while the monotonic cache age is below the caller's nonzero maximum, returns
success immediately without starting a pass; a maximum age of 0 never
suppresses the refresh on age grounds. -/
theorem refresh_gate_silent_success
    (ctl : RefreshCtl) (now cacheAge : Nat) :
    (ctl.isMetadataRefreshOngoing = true →
      refreshMetadataBegin ctl now cacheAge = (false, ctl)) ∧
    (0 < cacheAge → now - ctl.lastRefreshUsecs < cacheAge * 1000000 →
      refreshMetadataBegin ctl now cacheAge = (false, ctl)) ∧
    (cacheAge = 0 → ctl.isMetadataRefreshOngoing = false →
      (refreshMetadataBegin ctl now cacheAge).1 = true) := by
  refine ⟨fun h => ?_, fun h1 h2 => ?_, fun h1 h2 => ?_⟩ <;>
    simp [refreshMetadataBegin, *]

/-- Witness for C7: the three gate outcomes at concrete clock values. -/
theorem refresh_gate_silent_success_witness :
    refreshMetadataBegin ⟨true, 0⟩ 5 10 = (false, ⟨true, 0⟩) ∧
    refreshMetadataBegin ⟨false, 0⟩ 5 10 = (false, ⟨false, 0⟩) ∧
    (refreshMetadataBegin ⟨false, 0⟩ 5 0).1 = true :=
  ⟨(refresh_gate_silent_success ⟨true, 0⟩ 5 10).1 rfl,
   (refresh_gate_silent_success ⟨false, 0⟩ 5 10).2.1 (by decide) (by decide),
   (refresh_gate_silent_success ⟨false, 0⟩ 5 0).2.2 rfl rfl⟩

/-- C8: the batch driver processes its queue one target at a time; when the
head target's update resolves with an error, the batch resolves with that
same error, only that one target's update was ever started, and every
later-queued app is handed back exactly as it was queued (its state
untouched, so it never became Installed or Downloading). -/
theorem batch_fail_fast
    (st : PluginState) (orc : UpdateOracle) (a : BatchApp) (rest : List BatchApp)
    (t : RTarget) (e : PluginError)
    (h1 : lookupA a.targetName st.targetItemMap = some t)
    (h2 : orc.result t.objectPath = .error e) :
    updateAppsIter st orc (a :: rest) =
      ({ a with state := orc.finalState t.objectPath } :: rest, [t.objectPath], .error e) ∧
    (updateAppsIter st orc (a :: rest)).1.drop 1 = rest ∧
    (updateAppsIter st orc (a :: rest)).2.1 = [t.objectPath] := by
  refine ⟨?_, ?_, ?_⟩ <;> simp [updateAppsIter, h1, h2]

def c8State : PluginState :=
  { targetItemMap :=
      [("one", targetItemNew "component" "one" "/t/1"),
       ("two", targetItemNew "component" "two" "/t/2")],
    cache := [] }

def c8Oracle : UpdateOracle :=
  { result := fun p =>
      if p = "/t/1" then .error (.failed "Update failed with status = -2") else .ok ()
    finalState := fun _ => .available }

def c8AppOne : BatchApp := { name := "component-one", targetName := "one", state := .updatable }

def c8AppTwo : BatchApp := { name := "component-two", targetName := "two", state := .updatable }

/-- Witness for C8, Scenario E: first job fails with status -2; the batch
stops with that error and the second app is returned untouched. -/
theorem batch_fail_fast_witness :
    updateAppsIter c8State c8Oracle [c8AppOne, c8AppTwo] =
      ({ c8AppOne with state := .available } :: [c8AppTwo], ["/t/1"],
        .error (.failed "Update failed with status = -2")) ∧
    (updateAppsIter c8State c8Oracle [c8AppOne, c8AppTwo]).1.drop 1 = [c8AppTwo] ∧
    (updateAppsIter c8State c8Oracle [c8AppOne, c8AppTwo]).2.1 = ["/t/1"] :=
  batch_fail_fast c8State c8Oracle c8AppOne [c8AppTwo]
    (targetItemNew "component" "one" "/t/1") (.failed "Update failed with status = -2")
    rfl rfl

/-- C9: with both no-download and no-apply set, the batch update returns
success immediately without starting any job; with exactly one of them set,
it returns a failure immediately, again without starting any job. -/
theorem update_flags_gate (st : PluginState) (orc : UpdateOracle) (apps : List BatchApp) :
    updateAppsAsync st orc true true apps = (apps, [], .ok ()) ∧
    updateAppsAsync st orc true false apps =
      (apps, [],
       .error (.failed "systemd-sysupdate cannot apply an update without downloading it")) ∧
    updateAppsAsync st orc false true apps =
      (apps, [],
       .error (.failed "systemd-sysupdate cannot download an update without applying it")) :=
  ⟨rfl, rfl, rfl⟩

/-! ## Lemmas about the registry snapshot replacement and the listings -/

theorem lookupA_eq_some_mem {α : Type} {k : String} {v : α} {m : List (String × α)}
    (h : lookupA k m = some v) : (k, v) ∈ m := by
  induction m with
  | nil => simp at h
  | cons p rest ih =>
      obtain ⟨pk, pv⟩ := p
      by_cases hk : pk = k
      · subst hk
        simp at h
        simp [h]
      · simp [hk] at h
        exact List.mem_cons_of_mem _ (ih h)

theorem mem_removeA_sub {α : Type} {k' : String} {p : String × α} {m : List (String × α)}
    (h : p ∈ removeA k' m) : p ∈ m := by
  induction m with
  | nil => simp [removeA] at h
  | cons q rest ih =>
      obtain ⟨qk, qv⟩ := q
      by_cases hk : qk = k'
      · simp only [removeA, hk, if_pos] at h
        exact List.mem_cons_of_mem _ (ih h)
      · simp only [removeA, hk, if_neg, not_false_iff] at h
        rcases List.mem_cons.mp h with h1 | h2
        · exact h1 ▸ List.mem_cons_self _ _
        · exact List.mem_cons_of_mem _ (ih h2)

theorem mem_insertA {α : Type} {k k' : String} {v v' : α} {m : List (String × α)}
    (h : (k, v) ∈ insertA k' v' m) : (k = k' ∧ v = v') ∨ (k, v) ∈ m := by
  rcases List.mem_cons.mp h with h1 | h2
  · left
    exact ⟨congrArg Prod.fst h1, congrArg Prod.snd h1⟩
  · right
    exact mem_removeA_sub h2

theorem lookupA_mapVal {α β : Type} (f : α → β) (k : String) (m : List (String × α)) :
    lookupA k (m.map (fun p => (p.1, f p.2))) = (lookupA k m).map f := by
  induction m with
  | nil => rfl
  | cons p rest ih =>
      obtain ⟨pk, pv⟩ := p
      by_cases hk : pk = k <;> simp [hk, ih]

theorem mem_mapVal {α β : Type} {f : α → β} {k : String} {v : β} {m : List (String × α)}
    (h : (k, v) ∈ m.map (fun p => (p.1, f p.2))) : ∃ w, (k, w) ∈ m ∧ v = f w := by
  rcases List.mem_map.mp h with ⟨⟨pk, pv⟩, hp, he⟩
  refine ⟨pv, ?_, ?_⟩
  · obtain ⟨h1, h2⟩ := Prod.mk.injEq .. ▸ he
    exact h1 ▸ hp
  · exact (congrArg Prod.snd he).symm

theorem lookupA_foldl_insert_notmem {α : Type} (g : String × String × String → α)
    (k : String) (listing : List (String × String × String)) (m : List (String × α))
    (h : ∀ e ∈ listing, e.2.1 ≠ k) :
    lookupA k (listing.foldl (fun acc e => insertA e.2.1 (g e) acc) m) = lookupA k m := by
  induction listing generalizing m with
  | nil => rfl
  | cons e rest ih =>
      simp only [List.foldl_cons]
      rw [ih _ (fun x hx => h x (List.mem_cons_of_mem e hx))]
      rw [lookupA_insertA]
      simp [h e (List.mem_cons_self e rest)]

theorem mem_foldl_insert {α : Type} (g : String × String × String → α)
    (listing : List (String × String × String)) (m : List (String × α))
    (k : String) (v : α)
    (h : (k, v) ∈ listing.foldl (fun acc e => insertA e.2.1 (g e) acc) m) :
    (k, v) ∈ m ∨ ∃ e ∈ listing, k = e.2.1 ∧ v = g e := by
  induction listing generalizing m with
  | nil => exact Or.inl (by simpa using h)
  | cons e rest ih =>
      simp only [List.foldl_cons] at h
      rcases ih _ h with hm | ⟨e', he', hk, hv⟩
      · rcases mem_insertA hm with ⟨hk, hv⟩ | hmm
        · exact Or.inr ⟨e, List.mem_cons_self e rest, hk, hv⟩
        · exact Or.inl hmm
      · exact Or.inr ⟨e', List.mem_cons_of_mem _ he', hk, hv⟩

theorem lookupA_foldl_insert_mem {α : Type} (g : String × String × String → α)
    (listing : List (String × String × String)) (m : List (String × α)) (nm : String)
    (h : nm ∈ listing.map (fun e => e.2.1)) :
    ∃ e ∈ listing, e.2.1 = nm ∧
      lookupA nm (listing.foldl (fun acc e => insertA e.2.1 (g e) acc) m) = some (g e) := by
  induction listing generalizing m with
  | nil => simp at h
  | cons e rest ih =>
      by_cases hr : nm ∈ rest.map (fun x => x.2.1)
      · rcases ih (insertA e.2.1 (g e) m) hr with ⟨e', he', hk, hl⟩
        exact ⟨e', List.mem_cons_of_mem _ he', hk, by simpa [List.foldl_cons] using hl⟩
      · have hnm : e.2.1 = nm := by
          rw [List.map_cons] at h
          rcases List.mem_cons.mp h with h1 | h2
          · exact h1.symm
          · exact absurd h2 hr
        refine ⟨e, List.mem_cons_self e rest, hnm, ?_⟩
        simp only [List.foldl_cons]
        rw [lookupA_foldl_insert_notmem g nm rest _
          (fun x hx hEq => hr (hEq ▸ List.mem_map_of_mem (fun y => y.2.1) hx))]
        simp [lookupA_insertA, hnm]

theorem lookupA_filter_none {α : Type} (pred : String × α → Bool) (k : String)
    (m : List (String × α)) (h : ∀ v, (k, v) ∈ m → pred (k, v) = false) :
    lookupA k (m.filter pred) = none := by
  induction m with
  | nil => rfl
  | cons p rest ih =>
      obtain ⟨pk, pv⟩ := p
      have hrest := fun v hv => h v (List.mem_cons_of_mem _ hv)
      by_cases hk : pk = k
      · subst hk
        have hp := h pv (List.mem_cons_self _ _)
        simp [List.filter_cons, hp, ih hrest]
      · by_cases hp : pred (pk, pv)
        · simp [List.filter_cons, hp, hk, ih hrest]
        · simp [List.filter_cons, hp, ih hrest]

theorem lookupA_filter_of_pred {α : Type} (pred : String × α → Bool) (k : String)
    (m : List (String × α)) (v : α)
    (h : lookupA k m = some v) (hp : pred (k, v) = true) :
    lookupA k (m.filter pred) = some v := by
  induction m with
  | nil => simp at h
  | cons p rest ih =>
      obtain ⟨pk, pv⟩ := p
      by_cases hk : pk = k
      · subst hk
        simp at h
        subst h
        simp [List.filter_cons, hp]
      · simp [hk] at h
        by_cases hq : pred (pk, pv)
        · simp [List.filter_cons, hq, hk, ih h]
        · simp [List.filter_cons, hq, ih h]

/-- Every name returned by the `list_apps` visit loop is the name of a
non-`host` target present in the visited registry. -/
theorem mem_listAppsVisit_names (q : AppQuery) (m : List (String × RTarget))
    (cache : List (String × AppRec)) (n : String)
    (h : n ∈ (listAppsVisit q m cache).1) :
    ∃ k t, (k, t) ∈ m ∧ t.name = n ∧ t.cls ≠ "host" := by
  induction m generalizing cache with
  | nil => simp [listAppsVisit] at h
  | cons p rest ih =>
      obtain ⟨k0, t0⟩ := p
      rw [listAppsVisit] at h
      split at h
      · rename_i cache1 heq
        rcases ih cache1 h with ⟨k, t, hm, hn, hc⟩
        exact ⟨k, t, List.mem_cons_of_mem _ hm, hn, hc⟩
      · rename_i app cache1 heq
        by_cases hhost : t0.cls = "host"
        · rw [if_pos hhost] at h
          rcases ih cache1 h with ⟨k, t, hm, hn, hc⟩
          exact ⟨k, t, List.mem_cons_of_mem _ hm, hn, hc⟩
        · rw [if_neg hhost] at h
          have hsplit :
              n = t0.name ∨ n ∈ (listAppsVisit q rest cache1).1 := by
            split at h
            · exact List.mem_cons.mp h
            · split at h
              · exact List.mem_cons.mp h
              · split at h
                · exact List.mem_cons.mp h
                · exact Or.inr h
          rcases hsplit with h1 | h2
          · exact ⟨k0, t0, List.mem_cons_self _ _, h1.symm, hhost⟩
          · rcases ih cache1 h2 with ⟨k, t, hm, hn, hc⟩
            exact ⟨k, t, List.mem_cons_of_mem _ hm, hn, hc⟩

/-- Every name returned by the distro-upgrades visit loop is the name of a
`host` target with a non-empty latest version. -/
theorem mem_listDistroUpgradesVisit_names (m : List (String × RTarget))
    (cache : List (String × AppRec)) (n : String)
    (h : n ∈ (listDistroUpgradesVisit m cache).1) :
    ∃ k t, (k, t) ∈ m ∧ t.name = n ∧ t.cls = "host" ∧ t.latestVersion ≠ "" := by
  induction m generalizing cache with
  | nil => simp [listDistroUpgradesVisit] at h
  | cons p rest ih =>
      obtain ⟨k0, t0⟩ := p
      rw [listDistroUpgradesVisit] at h
      by_cases hhost : t0.cls ≠ "host"
      · rw [if_pos hhost] at h
        rcases ih cache h with ⟨k, t, hm, hn, hc, hl⟩
        exact ⟨k, t, List.mem_cons_of_mem _ hm, hn, hc, hl⟩
      · rw [if_neg hhost] at h
        by_cases hl0 : t0.latestVersion = ""
        · rw [if_pos hl0] at h
          rcases ih cache h with ⟨k, t, hm, hn, hc, hl⟩
          exact ⟨k, t, List.mem_cons_of_mem _ hm, hn, hc, hl⟩
        · rw [if_neg hl0] at h
          split at h
          · rename_i cache1 heq
            rcases ih cache1 h with ⟨k, t, hm, hn, hc, hl⟩
            exact ⟨k, t, List.mem_cons_of_mem _ hm, hn, hc, hl⟩
          · rename_i app cache1 heq
            rcases List.mem_cons.mp h with h1 | h2
            · exact ⟨k0, t0, List.mem_cons_self _ _, h1.symm, not_not.mp hhost, hl0⟩
            · rcases ih cache1 h2 with ⟨k, t, hm, hn, hc, hl⟩
              exact ⟨k, t, List.mem_cons_of_mem _ hm, hn, hc, hl⟩

/-- A `host` target with a non-empty latest version is reported by the
distro-upgrades visit loop. -/
theorem listDistroUpgradesVisit_contains (m : List (String × RTarget))
    (cache : List (String × AppRec)) (k : String) (t : RTarget)
    (hm : (k, t) ∈ m) (hc : t.cls = "host") (hl : t.latestVersion ≠ "") :
    t.name ∈ (listDistroUpgradesVisit m cache).1 := by
  induction m generalizing cache with
  | nil => simp at hm
  | cons p rest ih =>
      obtain ⟨k0, t0⟩ := p
      rw [listDistroUpgradesVisit]
      rcases List.mem_cons.mp hm with h1 | h2
      · injection h1 with hk1 ht1
        subst ht1
        rw [if_neg (by simp [hc])]
        rw [if_neg hl]
        have ha : ∃ app cache1, getOrCreateAppForTarget cache t = (some app, cache1) := by
          unfold getOrCreateAppForTarget
          rcases hx : lookupA t.name cache with _ | app
          · unfold createAppForTarget
            rw [if_pos hc]
            exact ⟨_, _, rfl⟩
          · exact ⟨app, cache, rfl⟩
        rcases ha with ⟨app, cache1, hg⟩
        rw [hg]
        exact List.mem_cons_self _ _
      · by_cases hh0 : t0.cls ≠ "host"
        · rw [if_pos hh0]
          exact ih cache h2
        · rw [if_neg hh0]
          by_cases hl0 : t0.latestVersion = ""
          · rw [if_pos hl0]
            exact ih cache h2
          · rw [if_neg hl0]
            rcases hg : getOrCreateAppForTarget cache t0 with ⟨a?, cache1⟩
            rcases a? with _ | app
            · exact ih cache1 h2
            · exact List.mem_cons_of_mem _ (ih cache1 h2)

/-- C6: `replace_snapshot` marks every existing entry invalid, inserts one
fresh entry (with empty current and latest versions) per listed tuple, then
purges every entry still invalid and evicts its cached item; consequently a
target present in the registry but absent from the new listing loses its
registry entry and its cached item, and a subsequent app listing excludes
it. -/
theorem replace_snapshot_round_trip
    (st : PluginState) (listing : List (String × String × String)) (name : String)
    (h1 : (lookupA name st.targetItemMap).isSome = true)
    (h2 : ∀ e ∈ listing, e.2.1 ≠ name) :
    lookupA name (replaceSnapshot st listing).targetItemMap = none ∧
    lookupA name (replaceSnapshot st listing).cache = none ∧
    (∀ nm, nm ∈ listing.map (fun e => e.2.1) →
      ∃ t, lookupA nm (replaceSnapshot st listing).targetItemMap = some t ∧
        t.currentVersion = "" ∧ t.latestVersion = "" ∧ t.isValid = true) ∧
    (∀ q names cache', listApps (replaceSnapshot st listing) q = .ok (names, cache') →
      name ∉ names) := by
  have hmain :
      ∀ v : RTarget, (name, v) ∈ listing.foldl
          (fun acc e => insertA e.2.1 (targetItemNew e.1 e.2.1 e.2.2) acc)
          (st.targetItemMap.map (fun p => (p.1, { p.2 with isValid := false }))) →
        v.isValid = false := by
    intro v hv
    rcases mem_foldl_insert _ _ _ _ _ hv with hm | ⟨e, he, hk, hvv⟩
    · rcases mem_mapVal (f := fun t : RTarget => { t with isValid := false }) hm
        with ⟨w, _, rfl⟩
      rfl
    · exact absurd hk.symm (h2 e he)
  have hlook :
      lookupA name (listing.foldl
          (fun acc e => insertA e.2.1 (targetItemNew e.1 e.2.1 e.2.2) acc)
          (st.targetItemMap.map (fun p => (p.1, { p.2 with isValid := false })))) =
        (lookupA name st.targetItemMap).map (fun t => { t with isValid := false }) := by
    rw [lookupA_foldl_insert_notmem _ _ _ _ h2]
    exact lookupA_mapVal (fun t => { t with isValid := false }) name st.targetItemMap
  obtain ⟨v0, hv0⟩ := Option.isSome_iff_exists.mp h1
  have hlooksome :
      lookupA name (listing.foldl
          (fun acc e => insertA e.2.1 (targetItemNew e.1 e.2.1 e.2.2) acc)
          (st.targetItemMap.map (fun p => (p.1, { p.2 with isValid := false })))) =
        some { v0 with isValid := false } := by
    rw [hlook, hv0]
    rfl
  simp only [replaceSnapshot]
  refine ⟨?_, ?_, ?_, ?_⟩
  · exact lookupA_filter_none _ _ _ (fun v hv => hmain v hv)
  · exact lookupA_filter_none _ _ _ (fun v _ => by simp [hlooksome])
  · intro nm hnm
    rcases lookupA_foldl_insert_mem (fun e => targetItemNew e.1 e.2.1 e.2.2) listing
      (st.targetItemMap.map (fun p => (p.1, { p.2 with isValid := false }))) nm hnm
      with ⟨e, he, hk, hl⟩
    exact ⟨targetItemNew e.1 e.2.1 e.2.2, lookupA_filter_of_pred _ _ _ _ hl rfl, rfl, rfl, rfl⟩
  · intro q names cache' hok hmem
    unfold listApps at hok
    split at hok
    · exact absurd hok (by simp)
    · injection hok with hok2
      have hnames : names = (listAppsVisit q
          ((listing.foldl
            (fun acc e => insertA e.2.1 (targetItemNew e.1 e.2.1 e.2.2) acc)
            (st.targetItemMap.map (fun p => (p.1, { p.2 with isValid := false })))).filter
              (fun p => p.2.isValid))
          (st.cache.filter (fun p =>
            match lookupA p.1 (listing.foldl
              (fun acc e => insertA e.2.1 (targetItemNew e.1 e.2.1 e.2.2) acc)
              (st.targetItemMap.map (fun p => (p.1, { p.2 with isValid := false })))) with
            | some t => t.isValid
            | none => true))).1 := (congrArg Prod.fst hok2).symm
      rcases mem_listAppsVisit_names _ _ _ _ (hnames ▸ hmem) with ⟨k, t, hm, hn, _⟩
      have hmf := List.mem_filter.mp hm
      rcases mem_foldl_insert _ _ _ _ _ hmf.1 with hmk | ⟨e, he, hk, hv⟩
      · rcases mem_mapVal (f := fun t : RTarget => { t with isValid := false }) hmk
          with ⟨w, _, rfl⟩
        simp at hmf
      · have : t.name = e.2.1 := by rw [hv]; rfl
        exact h2 e he (by rw [← this, hn])

def c6State : PluginState :=
  { targetItemMap := [("gone", targetItemNew "component" "gone" "/t/g")],
    cache := [("gone",
      { targetName := "gone", isHost := false, state := .installed,
        recoverState := .installed, progressKnown := false, version := "1" })] }

def c6Listing : List (String × String × String) := [("component", "fresh", "/t/f")]

def c6FreshApp : AppRec :=
  { targetName := "fresh", isHost := false, state := .unknown, recoverState := .unknown,
    progressKnown := false, version := "unknown" }

/-- Witness for C6: a registry with target `gone` (and its cached item)
replaced by a listing containing only `fresh`: the `gone` entry and its
cached item are dropped and a subsequent for-update listing returns only
`fresh`. -/
theorem replace_snapshot_round_trip_witness :
    (lookupA "gone" c6State.targetItemMap).isSome = true ∧
    lookupA "gone" (replaceSnapshot c6State c6Listing).targetItemMap = none ∧
    lookupA "gone" (replaceSnapshot c6State c6Listing).cache = none ∧
    "gone" ∉ (["fresh"] : List String) := by
  have h := replace_snapshot_round_trip c6State c6Listing "gone" (by decide) (by decide)
  exact ⟨by decide, h.1, h.2.1,
    h.2.2.2 { isInstalled := .unset, isForUpdate := .isTrue, keywords := none,
              nPropertiesSet := 1 } ["fresh"] [("fresh", c6FreshApp)] rfl⟩

/-- C10: a supported `list_apps` query never returns the item of a
Host-class target (each returned name is the name of a non-host registry
target), while the distro-upgrade listing returns exactly the host targets
with a non-empty latest version. -/
theorem host_item_only_in_distro_upgrades
    (st : PluginState) (q : AppQuery) (names : List String)
    (cache' : List (String × AppRec))
    (h : listApps st q = .ok (names, cache')) :
    (∀ n ∈ names, ∃ k t, (k, t) ∈ st.targetItemMap ∧ t.name = n ∧ t.cls ≠ "host") ∧
    (∀ n ∈ (listDistroUpgrades st).1, ∃ k t, (k, t) ∈ st.targetItemMap ∧ t.name = n ∧
      t.cls = "host" ∧ t.latestVersion ≠ "") ∧
    (∀ k t, (k, t) ∈ st.targetItemMap → t.cls = "host" → t.latestVersion ≠ "" →
      t.name ∈ (listDistroUpgrades st).1) := by
  refine ⟨?_, ?_, ?_⟩
  · intro n hn
    unfold listApps at h
    split at h
    · exact absurd h (by simp)
    · injection h with h2
      have h2fst : (listAppsVisit q st.targetItemMap st.cache).1 = names := by rw [h2]
      rw [← h2fst] at hn
      exact mem_listAppsVisit_names q st.targetItemMap st.cache n hn
  · intro n hn
    exact mem_listDistroUpgradesVisit_names st.targetItemMap st.cache n hn
  · intro k t hm hc hl
    exact listDistroUpgradesVisit_contains st.targetItemMap st.cache k t hm hc hl

def c10Host : RTarget :=
  { isValid := true, cls := "host", name := "os", objectPath := "/t/h",
    currentVersion := "1", latestVersion := "2" }

def c10Comp : RTarget :=
  { isValid := true, cls := "component", name := "comp", objectPath := "/t/c",
    currentVersion := "1", latestVersion := "2" }

def c10State : PluginState :=
  { targetItemMap := [("os", c10Host), ("comp", c10Comp)], cache := [] }

def c10Query : AppQuery :=
  { isInstalled := .unset, isForUpdate := .isTrue, keywords := none, nPropertiesSet := 1 }

def c10HostApp : AppRec :=
  { targetName := "os", isHost := true, state := .unknown, recoverState := .unknown,
    progressKnown := false, version := "unknown" }

def c10CompApp : AppRec :=
  { targetName := "comp", isHost := false, state := .unknown, recoverState := .unknown,
    progressKnown := false, version := "unknown" }

/-- Witness for C10: with a host target (latest version non-empty) and a
component target in the registry, the for-update listing returns only the
component and the distro-upgrade listing contains the host. -/
theorem host_item_only_in_distro_upgrades_witness :
    listApps c10State c10Query = .ok (["comp"], [("comp", c10CompApp), ("os", c10HostApp)]) ∧
    "os" ∈ (listDistroUpgrades c10State).1 :=
  ⟨rfl,
   (host_item_only_in_distro_upgrades c10State c10Query ["comp"]
      [("comp", c10CompApp), ("os", c10HostApp)] rfl).2.2 "os" c10Host
      (List.mem_cons_self _ _) rfl (by decide)⟩

end SysUpdate
